import Mathlib

/-!
Shallow embedding of the core of `Achievements_Fixer.py` (a GOG→Goldberg
achievements watcher): the document transform inside
`AchievementsHandler._process_file`, the per-path debounce in
`AchievementsHandler.on_modified`, the watch-session state machine of
`WatcherManager` (`start_watch` / `stop`), and the candidate resolution in
`find_achievements_json_for_gog_id`.

JSON documents are modelled by `JVal`.  Numeric JSON literals are modelled as
integers (the fields under study are integer epoch timestamps).  The Python
semantics the code relies on are embedded explicitly:

* truthiness, for the `a or b or c` field chain (`pyTruthy`, `pyOr`);
* `isinstance(x, int)`, which in Python is also true for `bool` values
  because `bool` is a subclass of `int` (`pyIsInstanceInt`);
* the `int(x)` coercion (`pyToIntOpt`; `none` models the call raising).
  `int` applied to a string accepts optional surrounding whitespace, an
  optional sign and a nonempty digit run; other strings raise.
-/

inductive JVal where
  | null : JVal
  | bool : Bool → JVal
  | int : Int → JVal
  | str : String → JVal
  | arr : List JVal → JVal
  | obj : List (String × JVal) → JVal
deriving Repr

/-- Python truthiness of a JSON-decoded value (`None`, `False`, `0`, `""`,
`[]`, `{}` are falsy, everything else truthy). -/
def pyTruthy : JVal → Bool
  | .null => false
  | .bool b => b
  | .int n => n != 0
  | .str s => s ≠ ""
  | .arr xs => !xs.isEmpty
  | .obj fs => !fs.isEmpty

/-- Python `a or b`: returns `a` when `a` is truthy, else `b`. -/
def pyOr (a b : JVal) : JVal := if pyTruthy a then a else b

/-- `dict.get(key)` on a JSON object: the bound value, or `None` (our `.null`)
when the key is absent. -/
def dictGet (fields : List (String × JVal)) (key : String) : JVal :=
  match fields.lookup key with
  | some v => v
  | none => .null

/-- Python `isinstance(x, int)` on a JSON-decoded value.  True for `bool`
values too: Python's `bool` is a subclass of `int`. -/
def pyIsInstanceInt : JVal → Bool
  | .int _ => true
  | .bool _ => true
  | _ => false

/-- Digit run to a natural number. -/
def digitsToNat (cs : List Char) : Nat :=
  cs.foldl (fun acc c => acc * 10 + (c.toNat - 48)) 0

/-- Python `int(s)` on a string: optional surrounding whitespace, optional
sign, then a nonempty run of decimal digits; anything else raises
(`none`). -/
def pyIntOfString (s : String) : Option Int :=
  match ((s.toList.dropWhile Char.isWhitespace).reverse.dropWhile Char.isWhitespace).reverse with
  | [] => none
  | c :: rest =>
    let signed : Int × List Char :=
      if c = '-' then (-1, rest) else if c = '+' then (1, rest) else (1, c :: rest)
    if signed.2 ≠ [] ∧ signed.2.all Char.isDigit then
      some (signed.1 * digitsToNat signed.2)
    else none

/-- Python `int(x)` on a JSON-decoded value; `none` models the call raising
(`int(None)`, `int([...])`, `int({...})` raise `TypeError`, unparseable
strings raise `ValueError`). -/
def pyToIntOpt : JVal → Option Int
  | .int n => some n
  | .bool b => some (if b then 1 else 0)
  | .str s => pyIntOfString s
  | _ => none

/-- The `unlock_time = value.get("unlock_time") or value.get("unlockTime") or
value.get("unlock_date")` chain of `_process_file`, guarded by
`isinstance(value, dict)`; a non-dict entry leaves `unlock_time = None`. -/
def extractRaw : JVal → JVal
  | .obj fields =>
      pyOr (dictGet fields "unlock_time")
        (pyOr (dictGet fields "unlockTime") (dictGet fields "unlock_date"))
  | _ => .null

/-- The per-entry timestamp computation of `_process_file`: keep the extracted
value if `isinstance(_, int)`, else try `int(_)`, else fall back to
`now_ts = int(time.time())`. -/
def entryTime (now_ts : Int) (value : JVal) : JVal :=
  let raw := extractRaw value
  if pyIsInstanceInt raw then raw
  else
    match pyToIntOpt raw with
    | some n => .int n
    | none => .int now_ts

/-- One record of the destination document: `{"earned": ..., "earned_time": ...}`.
`earned_time` is a `JVal` because `json.dump` serializes whatever Python value
the loop computed (an `int`, or a `bool` that survived the `isinstance` check). -/
structure DestRec where
  earned : Bool
  earned_time : JVal
deriving Repr

/-- The `modified` loop of `_process_file`: one output record per input key,
in iteration order. -/
def transform (now_ts : Int) : List (String × JVal) → List (String × DestRec)
  | [] => []
  | (k, v) :: rest => (k, ⟨true, entryTime now_ts v⟩) :: transform now_ts rest

/-- `true` exactly for a JSON integer value — used to state whether a written
`earned_time` is an integer. -/
def JVal.isIntVal : JVal → Bool
  | .int _ => true
  | _ => false

/-- Python `s.endswith(suffix)`, modelled on the character sequence (Lean's
built-in `String.endsWith` works on byte positions, which the kernel cannot
evaluate). -/
def strEndsWith (s suffix : String) : Bool :=
  suffix.toList.isSuffixOf s.toList

/-- A destination document (`modified` in the source): records in write
order, serialized by `json.dump`. -/
abbrev DestDoc := List (String × DestRec)

/-- How one `_process_file` call ended.  All of these return normally to the
caller: `errorCaught` is the outer `except` branch that logs and posts an
error message to the GUI queue. -/
inductive Outcome where
  | skippedMissing : Outcome
  | skippedEmpty : Outcome
  | skippedCorrupt : Outcome
  | errorCaught : Outcome
  | processed : Outcome
deriving Repr, DecidableEq

/-- `AchievementsHandler._process_file`, as a function of the source file's
content at read time (`none` = the file does not exist) and the current
destination document (`none` = never written).  `parse` stands for
`json.load`; returning `none` models `json.JSONDecodeError`.  A parsed
document that is not a mapping makes `data.items()` raise, which the outer
handler catches (`errorCaught`) without writing.  Only `processed` writes the
destination file. -/
def process_file (parse : String → Option JVal) (now_ts : Int)
    (content : Option String) (dest : Option DestDoc) : Option DestDoc × Outcome :=
  match content with
  | none => (dest, .skippedMissing)
  | some s =>
    if s.length = 0 then (dest, .skippedEmpty)
    else
      match parse s with
      | none => (dest, .skippedCorrupt)
      | some (.obj entries) => (some (transform now_ts entries), .processed)
      | some _ => (dest, .errorCaught)

/-- `time.sleep(0.5)` settle delay before reading the source file, in
milliseconds. -/
def settleDelayMs : Int := 500

/-- `time.sleep(2)` in the `_clear` thread that re-arms a debounced path, in
milliseconds. -/
def debounceWindowMs : Int := 2000

/-- State of an `AchievementsHandler`: for each path in `_processed_files`,
the instant at which the `_clear` thread discards it again; plus the current
destination document.  A path added after the event at time `t` (processing
starts at `t + settleDelayMs`) is discarded at
`t + settleDelayMs + debounceWindowMs`. -/
structure HandlerState where
  processedUntil : List (String × Int)
  dest : Option DestDoc
deriving Repr

/-- One filesystem notification: its timestamp (ms), the reported path,
whether it is a directory event, and the source file's content as it will be
read after the settle delay (`none` = missing). -/
structure FEvent where
  time : Int
  path : String
  isDir : Bool
  content : Option String
deriving Repr

/-- How `on_modified` handled one notification. -/
inductive HOutcome where
  | ignoredDir : HOutcome
  | ignoredName : HOutcome
  | suppressed : HOutcome
  | attempted : Outcome → HOutcome
deriving Repr, DecidableEq

/-- `event.src_path in self._processed_files`, time-indexed: an entry is in
the set while the current time is before its scheduled discard instant. -/
def inProcessedFiles (l : List (String × Int)) (p : String) (t : Int) : Bool :=
  l.any (fun pe => pe.1 == p && decide (t < pe.2))

/-- `AchievementsHandler.on_modified`: ignore directory events and paths not
ending in `achievements.json`; drop events for paths currently in
`_processed_files`; otherwise process the file and add the path to
`_processed_files` (unconditionally — `_process_file` catches its own
failures), scheduling its removal `debounceWindowMs` after processing. -/
def on_modified (parse : String → Option JVal) (now_ts : Int)
    (st : HandlerState) (e : FEvent) : HandlerState × HOutcome :=
  if e.isDir then (st, .ignoredDir)
  else if !(strEndsWith e.path "achievements.json") then (st, .ignoredName)
  else if inProcessedFiles st.processedUntil e.path e.time then (st, .suppressed)
  else
    let r := process_file parse now_ts e.content st.dest
    (⟨(e.path, e.time + settleDelayMs + debounceWindowMs) :: st.processedUntil, r.1⟩,
     .attempted r.2)

/-- Filesystem facts `WatcherManager` consults: `os.path.exists` and
`os.path.abspath`. -/
structure WatchEnv where
  fsExists : String → Bool
  abspath : String → String

/-- The mutable fields of a `WatcherManager`: the running observer (by id),
the handler (its `(gog_id, steam_id)` pair) and `watched_path`. -/
structure WMState where
  observer : Option Nat
  handler : Option (String × String)
  watched_path : Option String
deriving Repr, DecidableEq

/-- Bookkeeping of watchdog subscriptions outside the manager: ids of
observers that were started and not yet stopped, a fresh-id counter, and
counters of subscribe / unsubscribe calls (for the churn claims). -/
structure ObsWorld where
  openObservers : List Nat
  nextId : Nat
  subCount : Nat
  unsubCount : Nat
deriving Repr, DecidableEq

namespace WatcherManager

/-- `WatcherManager.stop`: when an observer is running, stop and join it and
clear all three fields; otherwise do nothing. -/
def stop (st : WMState) (w : ObsWorld) : WMState × ObsWorld :=
  match st.observer with
  | none => (st, w)
  | some oid =>
      (⟨none, none, none⟩,
       { w with openObservers := w.openObservers.erase oid,
                unsubCount := w.unsubCount + 1 })

/-- `WatcherManager.start_watch`: refuse (returning `False`) when the target
file does not exist; do nothing (returning `True`) when the target's absolute
path equals the currently watched one (`os.path.abspath(self.watched_path or
"")`); otherwise `stop()` any running observer, then schedule and start a new
observer on the file's directory and record the new binding. -/
def start_watch (env : WatchEnv) (st : WMState) (w : ObsWorld)
    (path gog_id steam_id : String) : Bool × WMState × ObsWorld :=
  if !env.fsExists path then (false, st, w)
  else if env.abspath (st.watched_path.getD "") = env.abspath path then (true, st, w)
  else
    let sw := stop st w
    let oid := sw.2.nextId
    (true,
     ⟨some oid, some (gog_id, steam_id), some path⟩,
     { sw.2 with openObservers := oid :: sw.2.openObservers,
                 nextId := sw.2.nextId + 1,
                 subCount := sw.2.subCount + 1 })

end WatcherManager

/-- One call into the watch session. -/
inductive WOp where
  | start : String → String → String → WOp
  | stopWatch : WOp
deriving Repr

/-- Run a sequence of `start_watch` / `stop` calls against the session. -/
def runOps (env : WatchEnv) : List WOp → WMState × ObsWorld → WMState × ObsWorld
  | [], sw => sw
  | op :: rest, (st, w) =>
      match op with
      | .start p g s => runOps env rest (WatcherManager.start_watch env st w p g s).2
      | .stopWatch => runOps env rest (WatcherManager.stop st w)

/-- A fresh `WatcherManager` (`__init__`). -/
def initState : WMState := ⟨none, none, none⟩

/-- No subscription open, no calls made yet. -/
def initWorld : ObsWorld := ⟨[], 0, 0, 0⟩

/-- Filesystem facts `find_achievements_json_for_gog_id` consults: the result
of `glob.glob` on the pattern built from a GOG id, and `os.path.getmtime`. -/
structure ResolveEnv where
  globMatches : String → List String
  mtime : String → Int

/-- One insertion step of sorting by modification time, newest first
(`matches.sort(key=..., reverse=True)` is stable, so an element moves past
another only when its key is strictly larger). -/
def insertByMtimeDesc (mt : String → Int) (x : String) : List String → List String
  | [] => [x]
  | y :: ys => if mt x ≤ mt y then y :: insertByMtimeDesc mt x ys else x :: y :: ys

/-- Sort by modification time, newest first. -/
def sortByMtimeDesc (mt : String → Int) : List String → List String
  | [] => []
  | x :: xs => insertByMtimeDesc mt x (sortByMtimeDesc mt xs)

/-- `find_achievements_json_for_gog_id`: `None` when the glob has no match,
otherwise the most recently modified match. -/
def find_achievements_json_for_gog_id (env : ResolveEnv) (gog_id : String) :
    Option String :=
  let ms := env.globMatches gog_id
  if ms.isEmpty then none
  else (sortByMtimeDesc env.mtime ms).head?

/-- A `json.load` stand-in that always fails (non-JSON content). -/
def parseFail : String → Option JVal := fun _ => none

/-- A `json.load` stand-in returning a document whose single entry carries
`unlock_time: true`. -/
def parseBoolDoc : String → Option JVal :=
  fun _ => some (.obj [("a", .obj [("unlock_time", .bool true)])])

/-- A `json.load` stand-in returning a simple well-formed document. -/
def parseGoodDoc : String → Option JVal :=
  fun _ => some (.obj [("ach1", .obj [("unlock_time", .int 1700000000)])])

/-- A watch environment in which every path exists; absolute form is the
path itself. -/
def envAllExist : WatchEnv := ⟨fun _ => true, fun s => s⟩

/-- A watch environment in which no path exists. -/
def envNoneExist : WatchEnv := ⟨fun _ => false, fun s => s⟩

/-- A resolver environment with two glob matches of distinct modification
times; the second one is newer. -/
def envTwoMatches : ResolveEnv :=
  ⟨fun _ => ["emuA/123/achievements.json", "emuB/123/achievements.json"],
   fun p => if p = "emuB/123/achievements.json" then 10 else 3⟩

/-- A fresh handler: nothing debounced, destination never written. -/
def handlerInit : HandlerState := ⟨[], none⟩

/-- Notification at t=0 ms whose source file is missing at read time. -/
def evMissing : FEvent := ⟨0, "dir/achievements.json", false, none⟩

/-- Notification at t=1000 ms (inside the quiet window) for the same path. -/
def evSecond : FEvent := ⟨1000, "dir/achievements.json", false, some "data"⟩

/-- Notification at t=0 ms with readable content. -/
def evGood : FEvent := ⟨0, "dir/achievements.json", false, some "data"⟩

/-- Notification at t=2500 ms, when the quiet window has elapsed. -/
def evLater : FEvent := ⟨2500, "dir/achievements.json", false, some "data"⟩

/-- Coupling invariant of the watch session: the set of
started-and-not-stopped observers is exactly the one the manager's
`observer` field holds. -/
def ObsInvariant (st : WMState) (w : ObsWorld) : Prop :=
  w.openObservers = st.observer.toList

/-! ## Helper lemmas -/

/-- Key-wise description of the `modified` loop: the output binds `k` exactly
when the input does, to the transformed record. -/
theorem lookup_transform (now_ts : Int) (doc : List (String × JVal)) (k : String) :
    (transform now_ts doc).lookup k
      = (doc.lookup k).map (fun v => ⟨true, entryTime now_ts v⟩) := by
  induction doc with
  | nil => rfl
  | cons hd tl ih =>
      obtain ⟨k', v⟩ := hd
      cases h : k == k' <;> simp [transform, List.lookup, h, ih]

/-- The transform preserves the key sequence. -/
theorem transform_keys (now_ts : Int) (doc : List (String × JVal)) :
    (transform now_ts doc).map Prod.fst = doc.map Prod.fst := by
  induction doc with
  | nil => rfl
  | cons hd tl ih =>
      obtain ⟨k, v⟩ := hd
      simp [transform, ih]

/-- The computed `earned_time` is an integer, unless the extracted raw
timestamp was a boolean, which survives `isinstance(_, int)` untouched. -/
theorem entryTime_int_or_bool (now_ts : Int) (v : JVal) :
    (∃ n, entryTime now_ts v = .int n) ∨
    (∃ b, entryTime now_ts v = .bool b ∧ extractRaw v = .bool b) := by
  unfold entryTime
  cases hraw : extractRaw v with
  | bool b => exact Or.inr ⟨b, by simp [pyIsInstanceInt], rfl⟩
  | int n => exact Or.inl ⟨n, by simp [pyIsInstanceInt]⟩
  | null => exact Or.inl ⟨now_ts, by simp [pyIsInstanceInt, pyToIntOpt]⟩
  | str s =>
      cases hi : pyIntOfString s with
      | none => exact Or.inl ⟨now_ts, by simp [pyIsInstanceInt, pyToIntOpt, hi]⟩
      | some n => exact Or.inl ⟨n, by simp [pyIsInstanceInt, pyToIntOpt, hi]⟩
  | arr xs => exact Or.inl ⟨now_ts, by simp [pyIsInstanceInt, pyToIntOpt]⟩
  | obj fs => exact Or.inl ⟨now_ts, by simp [pyIsInstanceInt, pyToIntOpt]⟩

/-! ## C1 -/

/-- C1 counterexample: in the source document `{"a": {"unlock_time": 0}}`
every entry has an explicit integer `unlock_time`, but the output's
`earned_time` is the injected wall-clock time 123, not 0: Python's `or`
treats the integer 0 as falsy, so the extraction chain discards it. -/
theorem transform_zero_unlock_time_cex :
    (transform 123 [("a", .obj [("unlock_time", .int 0)])]).lookup "a"
        = some ⟨true, .int 123⟩
      ∧ (123 : Int) ≠ 0 :=
  ⟨rfl, by decide⟩

/-- C1 (amended): for every source-document entry that is a record whose
`unlock_time` field is a *nonzero* integer, the output's `earned_time` equals
that `unlock_time`.  (At 0 the `or`-chain treats the value as falsy and falls
back to the other fields or the current time.) -/
theorem transform_preserves_nonzero_unlock_time
    (now_ts : Int) (doc : List (String × JVal)) (k : String)
    (fields : List (String × JVal)) (n : Int)
    (hk : doc.lookup k = some (.obj fields))
    (hf : fields.lookup "unlock_time" = some (.int n)) (hn : n ≠ 0) :
    (transform now_ts doc).lookup k = some ⟨true, .int n⟩ := by
  rw [lookup_transform, hk, Option.map_some']
  have hraw : extractRaw (.obj fields) = .int n := by
    simp [extractRaw, dictGet, hf, pyOr, pyTruthy, hn]
  simp [entryTime, hraw, pyIsInstanceInt]

/-- C1 witness: a concrete document with `unlock_time = 7`. -/
theorem transform_preserves_nonzero_unlock_time_witness :
    (transform 50 [("a", .obj [("unlock_time", .int 7)])]).lookup "a"
      = some ⟨true, .int 7⟩ :=
  transform_preserves_nonzero_unlock_time 50 _ "a" _ 7 rfl rfl (by decide)

/-! ## C2 -/

/-- C2 counterexample: for the mapping-shaped source `{"a": {"unlock_time":
true}}` the written destination record is `{"earned": true, "earned_time":
true}` — `earned_time` is the JSON boolean `true`, not an integer, because
Python's `isinstance(True, int)` holds (bool subclasses int) and the value is
passed through to `json.dump` unchanged. -/
theorem process_file_bool_earned_time_cex :
    process_file parseBoolDoc 123 (some "data") none
        = (some [("a", ⟨true, .bool true⟩)], .processed)
      ∧ (JVal.bool true).isIntVal = false :=
  ⟨rfl, rfl⟩

/-- C2 (amended): for every mapping-shaped source document the written
destination document has exactly the source's keys, and every record is
`{earned: true, earned_time: t}` where `t` is an integer — except that when
an entry's extracted timestamp field is a JSON boolean, `t` is that boolean
(Python's `bool` passes the `isinstance(_, int)` check and is serialized as
`true`/`false`). -/
theorem process_file_written_doc_shape
    (parse : String → Option JVal) (now_ts : Int) (s : String)
    (doc : List (String × JVal)) (dest : Option DestDoc)
    (hs : s.length ≠ 0) (hp : parse s = some (.obj doc)) :
    ∃ D, process_file parse now_ts (some s) dest = (some D, .processed)
      ∧ D.map Prod.fst = doc.map Prod.fst
      ∧ ∀ k v, doc.lookup k = some v →
          ∃ et, D.lookup k = some ⟨true, et⟩ ∧
            ((∃ n, et = .int n) ∨ (∃ b, et = .bool b ∧ extractRaw v = .bool b)) := by
  refine ⟨transform now_ts doc, ?_, transform_keys now_ts doc, ?_⟩
  · simp [process_file, hs, hp]
  · intro k v hk
    refine ⟨entryTime now_ts v, ?_, entryTime_int_or_bool now_ts v⟩
    rw [lookup_transform, hk, Option.map_some']

/-- C2 witness: a concrete one-entry document processed end to end. -/
theorem process_file_written_doc_shape_witness :
    ∃ D, process_file parseGoodDoc 9 (some "data") none = (some D, .processed)
      ∧ D.map Prod.fst = ["ach1"] := by
  obtain ⟨D, h1, h2, h3⟩ :=
    process_file_written_doc_shape parseGoodDoc 9 "data"
      [("ach1", .obj [("unlock_time", .int 1700000000)])] none (by decide) rfl
  exact ⟨D, h1, h2⟩

/-! ## C4 -/

/-- C4: per-entry timestamp policy.  Writing `raw` for the value extracted by
the `or`-chain over `unlock_time` / `unlockTime` / `unlock_date` (with
`raw = None` for a non-dict entry): every entry produces an output record
(extraction never fails); when `raw` passes `isinstance(_, int)` it is kept;
otherwise `int(raw)` is attempted and its value used; when that coercion
raises — in particular when no timestamp field is present, so `raw = None` —
the wall-clock time captured at the start of the call is substituted. -/
theorem transform_fallback_policy
    (now_ts : Int) (doc : List (String × JVal)) (k : String) (v : JVal)
    (hk : doc.lookup k = some v) :
    ∃ et, (transform now_ts doc).lookup k = some ⟨true, et⟩
      ∧ (pyIsInstanceInt (extractRaw v) = true → et = extractRaw v)
      ∧ (pyIsInstanceInt (extractRaw v) = false →
          (∀ n, pyToIntOpt (extractRaw v) = some n → et = .int n)
          ∧ (pyToIntOpt (extractRaw v) = none → et = .int now_ts))
      ∧ (extractRaw v = .null → et = .int now_ts) := by
  refine ⟨entryTime now_ts v, ?_, ?_, ?_, ?_⟩
  · rw [lookup_transform, hk, Option.map_some']
  · intro h; simp [entryTime, h]
  · intro h
    refine ⟨fun n hn => ?_, fun hn => ?_⟩
    · simp [entryTime, h, hn]
    · simp [entryTime, h, hn]
  · intro h; simp [entryTime, h, pyIsInstanceInt, pyToIntOpt]

/-- C4 witness: an entry with no timestamp field falls back to the injected
wall-clock time 5. -/
theorem transform_fallback_policy_witness :
    ∃ et, (transform 5 [("a", .obj [])]).lookup "a" = some ⟨true, et⟩
      ∧ et = .int 5 := by
  obtain ⟨et, h1, _, _, h4⟩ :=
    transform_fallback_policy 5 [("a", .obj [])] "a" (.obj []) rfl
  exact ⟨et, h1, h4 rfl⟩

/-! ## C3 -/

theorem stop_preserves_inv (st : WMState) (w : ObsWorld) (h : ObsInvariant st w) :
    ObsInvariant (WatcherManager.stop st w).1 (WatcherManager.stop st w).2 := by
  unfold WatcherManager.stop ObsInvariant at *
  cases hobs : st.observer with
  | none => simpa [hobs] using h
  | some o =>
      rw [hobs] at h
      simp [hobs, h]

theorem stop_observer_none (st : WMState) (w : ObsWorld)
    (h : ObsInvariant st w) :
    (WatcherManager.stop st w).1.observer = none ∧
    (WatcherManager.stop st w).2.openObservers = [] := by
  have h2 := stop_preserves_inv st w h
  unfold WatcherManager.stop ObsInvariant at *
  cases hobs : st.observer with
  | none => simp_all [hobs]
  | some o => simp_all [hobs]

theorem start_watch_preserves_inv (env : WatchEnv) (st : WMState) (w : ObsWorld)
    (p g s : String) (h : ObsInvariant st w) :
    ObsInvariant (WatcherManager.start_watch env st w p g s).2.1
      (WatcherManager.start_watch env st w p g s).2.2 := by
  obtain ⟨h1, h2⟩ := stop_observer_none st w h
  unfold WatcherManager.start_watch
  by_cases hex : env.fsExists p
  · by_cases habs : env.abspath (st.watched_path.getD "") = env.abspath p
    · simpa [hex, habs] using h
    · simp only [hex, habs, Bool.not_true, if_false, if_true, ite_false, ite_true]
      unfold ObsInvariant
      simp [h2]
  · simpa [hex] using h

theorem runOps_preserves_inv (env : WatchEnv) (ops : List WOp)
    (st : WMState) (w : ObsWorld) (h : ObsInvariant st w) :
    ObsInvariant (runOps env ops (st, w)).1 (runOps env ops (st, w)).2 := by
  induction ops generalizing st w with
  | nil => simpa [runOps] using h
  | cons op rest ih =>
      cases op with
      | start p g s =>
          have h' := start_watch_preserves_inv env st w p g s h
          simpa [runOps] using ih _ _ h'
      | stopWatch =>
          have h' := stop_preserves_inv st w h
          simpa [runOps] using ih _ _ h'

/-- C3: at every state reachable by a sequence of `start_watch` / `stop`
calls from a fresh session, at most one filesystem subscription is open —
`start_watch` always tears down the running observer (via `stop`) before
starting a new one. -/
theorem watcher_at_most_one_subscription (env : WatchEnv) (ops : List WOp) :
    (runOps env ops (initState, initWorld)).2.openObservers.length ≤ 1 := by
  have h := runOps_preserves_inv env ops initState initWorld
    (by simp [ObsInvariant, initState, initWorld])
  rw [h]
  cases (runOps env ops (initState, initWorld)).1.observer <;> simp

/-! ## C5 -/

/-- C5: when the source file's content is non-empty but `json.load` fails,
`_process_file` performs no destination write: the previous destination
document (whatever it was, including none at all) is left unchanged, and the
event is dropped after logging (`skippedCorrupt`). -/
theorem process_file_corrupt_no_write
    (parse : String → Option JVal) (now_ts : Int) (s : String)
    (dest : Option DestDoc) (hs : s.length ≠ 0) (hp : parse s = none) :
    process_file parse now_ts (some s) dest = (dest, .skippedCorrupt) := by
  simp [process_file, hs, hp]

/-- C5 witness: unparseable content leaves a previously written destination
document untouched. -/
theorem process_file_corrupt_no_write_witness :
    process_file parseFail 9 (some "bad") (some [("k", ⟨true, .int 1⟩)])
      = (some [("k", ⟨true, .int 1⟩)], .skippedCorrupt) :=
  process_file_corrupt_no_write parseFail 9 "bad" (some [("k", ⟨true, .int 1⟩)])
    (by decide) rfl

/-! ## C6 -/

/-- C6: a notification whose source file exists but has zero length produces
no destination write and no error escalation: `_process_file` returns
normally after logging (the `skippedEmpty` early return, not the
`errorCaught` branch), for any parser, wall clock and prior destination. -/
theorem process_file_empty_no_write
    (parse : String → Option JVal) (now_ts : Int) (dest : Option DestDoc) :
    process_file parse now_ts (some "") dest = (dest, .skippedEmpty) := by
  simp [process_file]

/-! ## C7 -/

/-- C7: retargeting to a path whose absolute form equals the currently
watched absolute path is a no-op.  After a `start_watch` on `p`, a second
`start_watch` on any `p'` with the same absolute form returns `True` and
changes nothing: the observer, handler and watched path are those of the
first call, and the subscribe / unsubscribe counters are untouched. -/
theorem start_watch_same_abspath_noop
    (env : WatchEnv) (st : WMState) (w : ObsWorld) (p p' g s g' s' : String)
    (hex : env.fsExists p = true) (hex' : env.fsExists p' = true)
    (habs : env.abspath p' = env.abspath p) :
    WatcherManager.start_watch env
        (WatcherManager.start_watch env st w p g s).2.1
        (WatcherManager.start_watch env st w p g s).2.2 p' g' s'
      = (true, (WatcherManager.start_watch env st w p g s).2) := by
  by_cases hsame : env.abspath (st.watched_path.getD "") = env.abspath p
  · have h1 : WatcherManager.start_watch env st w p g s = (true, st, w) := by
      simp [WatcherManager.start_watch, hex, hsame]
    rw [h1]
    simp [WatcherManager.start_watch, hex', habs, hsame]
  · have h1 : (WatcherManager.start_watch env st w p g s).2.1.watched_path = some p := by
      simp [WatcherManager.start_watch, hex, hsame]
    generalize WatcherManager.start_watch env st w p g s = r1 at h1 ⊢
    unfold WatcherManager.start_watch
    rw [h1]
    simp [hex', habs]

/-- C7 witness: two consecutive `start_watch` calls on the same path from a
fresh session; the second changes nothing. -/
theorem start_watch_same_abspath_noop_witness :
    WatcherManager.start_watch envAllExist
        (WatcherManager.start_watch envAllExist initState initWorld "d/achievements.json" "g" "s").2.1
        (WatcherManager.start_watch envAllExist initState initWorld "d/achievements.json" "g" "s").2.2
        "d/achievements.json" "g" "s"
      = (true, (WatcherManager.start_watch envAllExist initState initWorld "d/achievements.json" "g" "s").2) :=
  start_watch_same_abspath_noop envAllExist initState initWorld
    "d/achievements.json" "d/achievements.json" "g" "s" "g" "s" rfl rfl rfl

/-! ## C10 -/

/-- C10: calling `start_watch` on a path that does not exist returns `False`
and changes nothing at all — the observer, handler and watched-path fields
keep their previous values, and no subscription is started or torn down (the
running watch, if any, keeps running). -/
theorem start_watch_missing_path_noop
    (env : WatchEnv) (st : WMState) (w : ObsWorld) (p g s : String)
    (h : env.fsExists p = false) :
    WatcherManager.start_watch env st w p g s = (false, st, w) := by
  simp [WatcherManager.start_watch, h]

/-- C10 witness: with an observer running on another path, a `start_watch`
on a missing path returns `False` and leaves the session (observer id 0,
handler, watched path, counters) exactly as it was. -/
theorem start_watch_missing_path_noop_witness :
    WatcherManager.start_watch envNoneExist
        ⟨some 0, some ("g", "s"), some "old/achievements.json"⟩ ⟨[0], 1, 1, 0⟩
        "new/achievements.json" "g" "s"
      = (false, ⟨some 0, some ("g", "s"), some "old/achievements.json"⟩, ⟨[0], 1, 1, 0⟩) :=
  start_watch_missing_path_noop envNoneExist
    ⟨some 0, some ("g", "s"), some "old/achievements.json"⟩ ⟨[0], 1, 1, 0⟩
    "new/achievements.json" "g" "s" rfl

/-! ## C9 -/

theorem sortByMtimeDesc_head_max (mt : String → Int) :
    ∀ l : List String, l ≠ [] →
      ∃ r, (sortByMtimeDesc mt l).head? = some r ∧ r ∈ l ∧ ∀ m ∈ l, mt m ≤ mt r := by
  intro l
  induction l with
  | nil => intro h; exact absurd rfl h
  | cons x xs ih =>
      intro _
      cases hxs : xs with
      | nil =>
          exact ⟨x, by simp [sortByMtimeDesc, insertByMtimeDesc], by simp, by simp⟩
      | cons y ys =>
          rw [hxs] at ih
          obtain ⟨r', hr1, hr2, hr3⟩ := ih (by simp)
          cases hs : sortByMtimeDesc mt (y :: ys) with
          | nil => rw [hs] at hr1; cases hr1
          | cons a rest =>
              rw [hs] at hr1
              have ha : a = r' := by simpa using hr1
              subst ha
              have hstep : sortByMtimeDesc mt (x :: y :: ys)
                  = insertByMtimeDesc mt x (sortByMtimeDesc mt (y :: ys)) := rfl
              by_cases hle : mt x ≤ mt a
              · refine ⟨a, ?_, List.mem_cons_of_mem _ hr2, ?_⟩
                · rw [hstep, hs]
                  simp [insertByMtimeDesc, hle]
                · intro m hm
                  rcases List.mem_cons.mp hm with h | h
                  · subst h; exact hle
                  · exact hr3 m h
              · refine ⟨x, ?_, List.mem_cons_self x _, ?_⟩
                · rw [hstep, hs]
                  simp [insertByMtimeDesc, hle]
                · intro m hm
                  rcases List.mem_cons.mp hm with h | h
                  · subst h; exact le_rfl
                  · exact le_trans (hr3 m h) (le_of_not_le hle)

/-- C9: `find_achievements_json_for_gog_id` returns `None` when the glob has
no match, and otherwise returns a match whose modification time is at least
that of every other match — so of any two matches with distinct mtimes, the
newer one wins. -/
theorem resolver_returns_latest_mtime (env : ResolveEnv) (gid : String) :
    (env.globMatches gid = [] → find_achievements_json_for_gog_id env gid = none)
    ∧ (∀ r, find_achievements_json_for_gog_id env gid = some r →
        r ∈ env.globMatches gid
        ∧ ∀ m ∈ env.globMatches gid, env.mtime m ≤ env.mtime r) := by
  constructor
  · intro h
    simp [find_achievements_json_for_gog_id, h]
  · intro r hr
    simp only [find_achievements_json_for_gog_id] at hr
    by_cases h : env.globMatches gid = []
    · simp [h] at hr
    · rw [if_neg (by simpa [List.isEmpty_iff] using h)] at hr
      obtain ⟨r', h1, h2, h3⟩ := sortByMtimeDesc_head_max env.mtime (env.globMatches gid) h
      rw [h1] at hr
      obtain rfl : r' = r := by simpa using hr
      exact ⟨h2, h3⟩

/-- C9 witness: two matches with modification times 3 and 10; the newer one
is returned. -/
theorem resolver_returns_latest_mtime_witness :
    find_achievements_json_for_gog_id envTwoMatches "123"
        = some "emuB/123/achievements.json"
      ∧ envTwoMatches.mtime "emuA/123/achievements.json"
          ≤ envTwoMatches.mtime "emuB/123/achievements.json" := by
  have h := (resolver_returns_latest_mtime envTwoMatches "123").2
    "emuB/123/achievements.json" (by decide)
  exact ⟨by decide, h.2 "emuA/123/achievements.json" (by decide)⟩

/-! ## C8 -/

theorem on_modified_attempted_inversion
    (parse : String → Option JVal) (now_ts : Int) (st : HandlerState)
    (e : FEvent) (o : Outcome)
    (h : (on_modified parse now_ts st e).2 = .attempted o) :
    e.isDir = false
    ∧ strEndsWith e.path "achievements.json" = true
    ∧ inProcessedFiles st.processedUntil e.path e.time = false
    ∧ on_modified parse now_ts st e =
        (⟨(e.path, e.time + settleDelayMs + debounceWindowMs) :: st.processedUntil,
          (process_file parse now_ts e.content st.dest).1⟩,
         .attempted (process_file parse now_ts e.content st.dest).2) := by
  unfold on_modified at *
  by_cases h1 : e.isDir
  · simp [h1] at h
  · by_cases h2 : strEndsWith e.path "achievements.json"
    · by_cases h3 : inProcessedFiles st.processedUntil e.path e.time
      · simp [h1, h2, h3] at h
      · refine ⟨by simpa using h1, h2, by simpa using h3, ?_⟩
        simp [h1, h2, h3]
    · simp [h1, h2] at h

theorem inProcessedFiles_mono (l : List (String × Int)) (p : String) (t t' : Int)
    (h : inProcessedFiles l p t = false) (hle : t ≤ t') :
    inProcessedFiles l p t' = false := by
  simp only [inProcessedFiles, List.any_eq_false] at *
  intro pe hpe
  have hh := h pe hpe
  simp only [Bool.and_eq_true, decide_eq_true_eq, not_and] at hh ⊢
  intro hb
  have hnt := hh hb
  omega

/-- C8 (amended): the quiet window engages after *any* processing attempt,
not only after a successful one — `on_modified` adds the path to
`_processed_files` unconditionally, `_process_file` having caught its own
failures.  After an attempt triggered by the event at `e.time`, a
notification for the same path is suppressed while the window
(`settleDelayMs + debounceWindowMs`, i.e. 2 s after the processing that
started 0.5 s past the event) is open, and one arriving at or after its end
is processed again: the `_clear` thread has re-armed the path. -/
theorem debounce_after_any_attempt
    (parse : String → Option JVal) (now_ts : Int) (st : HandlerState)
    (e e' : FEvent) (o : Outcome)
    (hAtt : (on_modified parse now_ts st e).2 = .attempted o)
    (hp : e'.path = e.path) (hd : e'.isDir = false) (ht : e.time < e'.time) :
    (e'.time < e.time + settleDelayMs + debounceWindowMs →
      (on_modified parse now_ts (on_modified parse now_ts st e).1 e').2
        = .suppressed)
    ∧ (e.time + settleDelayMs + debounceWindowMs ≤ e'.time →
      ∃ o2, (on_modified parse now_ts (on_modified parse now_ts st e).1 e').2
        = .attempted o2) := by
  obtain ⟨h1, h2, h3, h4⟩ := on_modified_attempted_inversion parse now_ts st e o hAtt
  rw [h4]
  have hcons : inProcessedFiles
      ((e.path, e.time + settleDelayMs + debounceWindowMs) :: st.processedUntil)
      e.path e'.time
    = ((e.path == e.path
          && decide (e'.time < e.time + settleDelayMs + debounceWindowMs))
        || inProcessedFiles st.processedUntil e.path e'.time) := rfl
  constructor
  · intro hin
    have hmem : inProcessedFiles
        ((e.path, e.time + settleDelayMs + debounceWindowMs) :: st.processedUntil)
        e.path e'.time = true := by
      rw [hcons]
      simp [hin]
    simp [on_modified, hd, hp, h2, hmem]
  · intro hafter
    have htail := inProcessedFiles_mono st.processedUntil e.path e.time e'.time h3
      (le_of_lt ht)
    have hmem : inProcessedFiles
        ((e.path, e.time + settleDelayMs + debounceWindowMs) :: st.processedUntil)
        e.path e'.time = false := by
      rw [hcons, htail]
      simp [not_lt.mpr hafter]
    refine ⟨(process_file parse now_ts e'.content
      (process_file parse now_ts e.content st.dest).1).2, ?_⟩
    simp [on_modified, hd, hp, h2, hmem]

/-- C8 counterexample: a first notification whose source file is missing at
read time is *not* successfully processed (no destination write: `dest` stays
`none`; outcome `skippedMissing`), yet the path is still added to the
debounce set, and a second notification for the same path 1 s later is
suppressed — contradicting "suppression applies only after successful
processing". -/
theorem debounce_after_failed_attempt_cex :
    (on_modified parseGoodDoc 7 handlerInit evMissing).2
        = .attempted .skippedMissing
    ∧ ((on_modified parseGoodDoc 7 handlerInit evMissing).1).dest = none
    ∧ (on_modified parseGoodDoc 7
        (on_modified parseGoodDoc 7 handlerInit evMissing).1 evSecond).2
        = .suppressed :=
  ⟨rfl, rfl, rfl⟩

/-- C8 witness: after a successful attempt at t=0, a notification at t=1000
(within the window) is suppressed, and one at t=2500 (window elapsed) is
processed again. -/
theorem debounce_after_any_attempt_witness :
    (on_modified parseGoodDoc 7
        (on_modified parseGoodDoc 7 handlerInit evGood).1 evSecond).2
      = .suppressed
    ∧ ∃ o2, (on_modified parseGoodDoc 7
        (on_modified parseGoodDoc 7 handlerInit evGood).1 evLater).2
      = .attempted o2 := by
  have hW := debounce_after_any_attempt parseGoodDoc 7 handlerInit evGood evSecond
    .processed rfl rfl rfl (by decide)
  have hA := debounce_after_any_attempt parseGoodDoc 7 handlerInit evGood evLater
    .processed rfl rfl rfl (by decide)
  exact ⟨hW.1 (by decide), hA.2 (by decide)⟩
